import Mathlib

/-!
Shallow embedding of the inactive-user detection and bulk-deletion subsystem:
the baseline-diff audit (src/user-data-audit.js), directory size computation,
the inactivity scan, the two-phase preview/confirm deletion endpoint, and the
single-user delete endpoint (routes/users-admin module).

Filesystem trees are modelled by an inductive type; fallible filesystem
operations (readdir, stat) carry explicit success flags so that the
try/catch structure of the source can be embedded faithfully.  JavaScript
numbers used as timestamps and byte counts are modelled as Nat (with Int
where a subtraction may go negative); the fractional megabyte limit is
modelled as a rational.
-/

/-- A filesystem node.  `file size statOk`: a regular file whose `stat` call
reports `size` bytes when `statOk` is true and throws otherwise.
`dir statSize statOk entries readOk`: a directory; `stat` reports
`statSize` when `statOk`, `readdir` lists `entries` when `readOk` and
throws otherwise.  `special`: any non-regular non-directory entry
(symlink, device, socket). -/
inductive FS where
  | file (size : Nat) (statOk : Bool)
  | dir (statSize : Nat) (statOk : Bool) (entries : List (String × FS)) (readOk : Bool)
  | special (statSize : Nat) (statOk : Bool)
deriving Repr

/-- Result of `fs.promises.stat`: `none` when the call throws, otherwise
whether the node is a directory and its reported byte size. -/
def statInfo : FS → Option (Bool × Nat)
  | .file sz ok => if ok then some (false, sz) else none
  | .dir sz ok _ _ => if ok then some (true, sz) else none
  | .special sz ok => if ok then some (false, sz) else none

/-- Resolve a relative path (list of components) inside a tree, as
`fs.existsSync(path.join(root, rel))` does: each component must name an
entry of the enclosing directory. -/
def FS.lookup : FS → List String → Option FS
  | t, [] => some t
  | .dir _ _ entries _, n :: rest =>
    match entries.find? (fun e => e.1 == n) with
    | some e => FS.lookup e.2 rest
    | none => none
  | .file _ _, _ :: _ => none
  | .special _ _, _ :: _ => none

/-- Names that are commonly present but not meaningful user content
(user-data-audit.js, IGNORED_ENTRY_NAMES). -/
def IGNORED_ENTRY_NAMES : List String := [".DS_Store", "Thumbs.db", "desktop.ini"]

/-- `path.join` of the accumulated relative components, for the reported
example path. -/
def relString (rel : List String) : String := String.intercalate "/" rel

mutual
/-- Classification of a single non-ignored entry `(name, t)` found at
relative location `rel` during the traversal of `dirHasExtraContent`.
`Except.error ()` models an exception escaping to the outer catch (a
failing `readdir`); `Except.ok (some ex)` models the early
`return hasExtra: true` with example path `ex`; `Except.ok none` means
the entry gives no extra signal and the walk continues. -/
def walkEntry (baseline : Option FS) (rel : List String) (name : String) :
    FS → Except Unit (Option String)
  | .dir _ _ entries readOk =>
    if readOk then walkEntries baseline (rel ++ [name]) entries
    else .error ()
  | .special _ _ => .ok (some (relString (rel ++ [name])))
  | .file size statOk =>
    match baseline with
    | none => .ok (some (relString (rel ++ [name])))
    | some b =>
      match FS.lookup b (rel ++ [name]) with
      | none => .ok (some (relString (rel ++ [name])))
      | some bnode =>
        match (if statOk then some size else none), statInfo bnode with
        | some us, some bs =>
          if us = bs.2 then .ok none
          else .ok (some (relString (rel ++ [name])))
        | _, _ => .ok (some (relString (rel ++ [name])))

/-- The traversal loop of `dirHasExtraContent` over the entries of the
tree below `rel`: OS-noise names are filtered out, every other entry is
classified by `walkEntry`, and the first extra entry (or escaping
exception) short-circuits the walk.  The JS version drives the same
traversal with an explicit stack; only the order in which entries are
visited differs, which can affect the reported example path but not the
outcome. -/
def walkEntries (baseline : Option FS) (rel : List String) :
    List (String × FS) → Except Unit (Option String)
  | [] => .ok none
  | (name, t) :: rest =>
    if IGNORED_ENTRY_NAMES.contains name then
      walkEntries baseline rel rest
    else
      match walkEntry baseline rel name t with
      | .error e => .error e
      | .ok (some ex) => .ok (some ex)
      | .ok none => walkEntries baseline rel rest
end

/-- Per-category audit result: `hasExtra` plus the optional example
relative path (user-data-audit.js return shape). -/
structure ExtraResult where
  hasExtra : Bool
  examplePath : Option String
deriving DecidableEq, Repr

/-- `dirHasExtraContent(userDir, baselineDir)`.  `userDir = none` models a
missing/falsy path or one for which `fs.existsSync` is false.  A root that
is not a readable directory makes `readdir` throw, landing in the outer
catch which reports extra content with example `"unknown"`. -/
def dirHasExtraContent (userDir : Option FS) (baselineDir : Option FS) : ExtraResult :=
  match userDir with
  | none => ⟨false, none⟩
  | some root =>
    match root with
    | .dir _ _ entries readOk =>
      if readOk then
        match walkEntries baselineDir [] entries with
        | .error _ => ⟨true, some "unknown"⟩
        | .ok (some ex) => ⟨true, some ex⟩
        | .ok none => ⟨false, none⟩
      else ⟨true, some "unknown"⟩
    | _ => ⟨true, some "unknown"⟩

/-- The fixed checklist of content categories (user-data-audit.js,
`keysToCheck`). -/
def keysToCheck : List String :=
  ["chats", "groupChats", "characters", "worlds", "groups", "files",
   "comfyWorkflows", "userImages", "instruct", "context", "sysprompt",
   "reasoning", "quickreplies", "openAI_Settings", "koboldAI_Settings",
   "novelAI_Settings", "textGen_Settings"]

/-- The loop of `checkUserIsUnused`: walk the checklist accumulating the
`details` record (modelled as an insertion-ordered association list) and
stop at the first category reporting extra content. -/
def checkGo (userDirectories baselineDirectories : String → Option FS) :
    List String → List (String × ExtraResult) → Bool × List (String × ExtraResult)
  | [], acc => (true, acc)
  | key :: rest, acc =>
    let r := dirHasExtraContent (userDirectories key) (baselineDirectories key)
    if r.hasExtra then (false, acc ++ [(key, r)])
    else checkGo userDirectories baselineDirectories rest (acc ++ [(key, r)])

/-- `checkUserIsUnused(userDirectories, baselineDirectories)`: the user is
unused only if every checked category reports no extra content.  The
directory sets are modelled as maps from category key to the directory
tree (`none` for a missing/falsy/nonexistent path). -/
def checkUserIsUnused (userDirectories baselineDirectories : String → Option FS) :
    Bool × List (String × ExtraResult) :=
  checkGo userDirectories baselineDirectories keysToCheck []

mutual
/-- `calculateDirectorySize` on a node that `readdir` is invoked on: a
non-directory or an unreadable directory makes `readdir` throw, which the
surrounding catch converts into the partial sum accumulated so far (zero
at this point). -/
def calcNode : FS → Nat
  | .dir _ _ entries readOk => if readOk then calcEntries entries else 0
  | .file _ _ => 0
  | .special _ _ => 0

/-- The summation loop of `calculateDirectorySize`: each item is `stat`ed;
a failing `stat` throws, aborting the loop with the sum accumulated so
far (so later siblings of the failing item are not counted); directories
recurse through their own protected call. -/
def calcEntries : List (String × FS) → Nat
  | [] => 0
  | (_, t) :: rest =>
    match statInfo t with
    | none => 0
    | some (isDir, size) => (if isDir then calcNode t else size) + calcEntries rest
end

/-- `calculateDirectorySize(dirPath)`: 0 for a path that does not exist
(`dirPath = none`), otherwise the protected recursive sum. -/
def calculateDirectorySize (dirPath : Option FS) : Nat :=
  match dirPath with
  | none => 0
  | some t => calcNode t

/-- A stored user account record (the fields the subsystem reads).
`created`, `expiresAt` and `email` are optional as in the JS records. -/
structure User where
  handle : String
  name : String
  created : Option Nat
  admin : Bool
  enabled : Bool
  expiresAt : Option Nat
  email : Option String
deriving DecidableEq, Repr

/-- `systemMonitor.getUserLoadStats` payload: the recorded last-activity
and heartbeat timestamps, each possibly absent. -/
structure UserStats where
  lastActivity : Option Nat
  lastHeartbeat : Option Nat
deriving DecidableEq, Repr

/-- JavaScript truthiness of an optional number: present and nonzero. -/
def truthyNat (o : Option Nat) : Bool := o.getD 0 != 0

/-- The last-activity computation of the scan (lines 675-689 of the
route): when a stats record exists and its `lastActivity` is truthy, use
the heartbeat if truthy and the recorded last activity otherwise;
in every other case fall back to `user.created || 0`. -/
def computeLastActivity (stats : Option UserStats) (created : Option Nat) : Nat :=
  match stats with
  | some s =>
    if truthyNat s.lastActivity then
      if truthyNat s.lastHeartbeat then s.lastHeartbeat.getD 0
      else s.lastActivity.getD 0
    else created.getD 0
  | none => created.getD 0

/-- The validated scan criteria, as echoed into the confirmation token:
`inactiveDays` (an integer between 1 and 3650), `requireUnused`,
`maxStorageMB` (a possibly fractional number of megabytes, or null) and
`excludeActiveSubscriptions`. -/
structure ScanCriteria where
  inactiveDays : Nat
  requireUnused : Bool
  maxStorageMB : Option ℚ
  excludeActiveSubscriptions : Bool
deriving DecidableEq, Repr

/-- `maxStorageBytes = maxStorageMB === null ? null : Math.floor(maxStorageMB * 1024 * 1024)`. -/
def maxStorageBytes (c : ScanCriteria) : Option Int :=
  c.maxStorageMB.map (fun mb => Int.floor (mb * 1048576))

/-- Milliseconds per day. -/
def dayMs : Nat := 24 * 60 * 60 * 1000

/-- `Boolean(user.expiresAt && user.expiresAt > now)`. -/
def hasActiveSubscriptionAt (expiresAt : Option Nat) (now : Nat) : Bool :=
  match expiresAt with
  | some e => decide (e > now)
  | none => false

/-- `user.expiresAt || null`: a zero timestamp is serialized as null. -/
def orNullNat (o : Option Nat) : Option Nat :=
  match o with
  | some 0 => none
  | x => x

/-- A deletion candidate produced by the scan (the fields of the pushed
candidate object, minus the locale-formatted date string). -/
structure Candidate where
  handle : String
  name : String
  lastActivity : Nat
  daysSinceLastActivity : Nat
  storageSize : Nat
  hasEmail : Bool
  expiresAt : Option Nat
  hasActiveSubscription : Bool
  isUnused : Option Bool
deriving DecidableEq, Repr

/-- The read-only world the route observes: the caller's handle, the
designated default account's handle, the clock at scan time (`now`) and
at the later per-candidate subscription re-check (`now2`), the activity
monitor, every user's directory trees keyed by handle and category (the
category `"root"` is the user's root directory), the template-filtered
baseline directory set, and the outcome oracles for the fallible
operations of the execution pass (email delivery, record removal,
directory removal). -/
structure Env where
  callerHandle : String
  defaultHandle : String
  now : Nat
  now2 : Nat
  stats : String → Option UserStats
  userDirs : String → String → Option FS
  baselineDirs : String → Option FS
  emailAvailable : Bool
  emailSend : String → Bool
  removeUserOk : String → Bool
  removeAvatarOk : String → Bool
  rmDirOk : String → Bool

/-- `typeof user.email === 'string' && user.email.trim().length > 0`. -/
def hasBoundEmail (email : Option String) : Bool :=
  match email with
  | some e => decide (e.trim.length > 0)
  | none => false

/-- The per-user filter chain of the scan loop (lines 654-727 of the
route): absolute protections first, then subscription exclusion, the
inactivity threshold, the storage cap, and finally the unused audit;
a surviving user becomes a candidate carrying the computed fields. -/
def scanUser (env : Env) (c : ScanCriteria) (user : User) : Option Candidate :=
  if user.handle = env.callerHandle then none
  else if user.handle = env.defaultHandle then none
  else if user.admin then none
  else
    let hasActiveSub := hasActiveSubscriptionAt user.expiresAt env.now
    if c.excludeActiveSubscriptions && hasActiveSub then none
    else
      let lastActivityTime := computeLastActivity (env.stats user.handle) user.created
      let timeSinceLastActivity : Int := (env.now : Int) - (lastActivityTime : Int)
      if ¬ (timeSinceLastActivity > ((c.inactiveDays * dayMs : Nat) : Int)) then none
      else
        let storageSize := calculateDirectorySize (env.userDirs user.handle "root")
        if (match maxStorageBytes c with
            | some m => decide ((storageSize : Int) > m)
            | none => false) then none
        else
          let mkCand (isUnused : Option Bool) : Candidate :=
            { handle := user.handle
              name := user.name
              lastActivity := lastActivityTime
              daysSinceLastActivity := (timeSinceLastActivity / (dayMs : Int)).toNat
              storageSize := storageSize
              hasEmail := hasBoundEmail user.email
              expiresAt := orNullNat user.expiresAt
              hasActiveSubscription := hasActiveSub
              isUnused := isUnused }
          if c.requireUnused then
            let unusedCheck := checkUserIsUnused (env.userDirs user.handle) env.baselineDirs
            if !unusedCheck.1 then none
            else some (mkCand (some unusedCheck.1))
          else some (mkCand none)

/-- The candidate list assembled by one scan pass over the user store. -/
def scanCandidates (env : Env) (c : ScanCriteria) (users : List User) : List Candidate :=
  users.filterMap (scanUser env c)

/-- `candidates.map(u => u.handle).sort()`: lexicographically sorted
candidate handles. -/
def sortedHandles (hs : List String) : List String :=
  hs.mergeSort (fun a b => a ≤ b)

/-- The confirmation token.  The route hashes
`JSON.stringify(criteria, sorted handles)` with SHA-256; the digest is
modelled by its preimage (criteria paired with the sorted handle list),
which identifies tokens of distinct digest inputs exactly. -/
def previewId (c : ScanCriteria) (handles : List String) : ScanCriteria × List String :=
  (c, sortedHandles handles)

/-- An observable destructive side effect of the execution pass. -/
inductive Effect where
  | removeUserRecord (handle : String)
  | removeAvatarRecord (handle : String)
  | removeDirectory (handle : String)
  | resetStats (handle : String)
deriving DecidableEq, Repr

/-- A per-candidate entry of the aggregate report. -/
structure CandResult where
  handle : String
  name : String
  success : Bool
  error : Option String
  deletedSize : Option Nat
  emailNotified : Bool
  emailError : Option String
deriving DecidableEq, Repr

/-- The mutable state the destructive pass touches: the account store and
the avatar store (lists of records keyed by handle). -/
structure Store where
  users : List User
  avatars : List String
deriving DecidableEq, Repr

/-- The per-candidate failure message of the inline protection re-check. -/
def protectedMsg : String := "Protected user cannot be deleted"

/-- One iteration of the execution loop (lines 771-862 of the route):
re-fetch the live record, re-check protections and the subscription
exclusion, send the best-effort notice, then remove the account and
avatar records, the directory tree and the live stats.  Every failure is
converted into a failure entry; the returned store and effect list
reflect exactly the destructive operations that succeeded (plus the
record removals already performed when a later step throws). -/
def execCandidate (env : Env) (excl : Bool) (st : Store) (cand : Candidate) :
    Store × CandResult × List Effect :=
  match st.users.find? (fun u => u.handle == cand.handle) with
  | none => (st, ⟨cand.handle, cand.name, false, some "User not found", none, false, none⟩, [])
  | some user =>
    if cand.handle = env.callerHandle ∨ cand.handle = env.defaultHandle ∨ user.admin then
      (st, ⟨cand.handle, cand.name, false, some protectedMsg, none, false, none⟩, [])
    else if excl && hasActiveSubscriptionAt user.expiresAt env.now2 then
      (st, ⟨cand.handle, cand.name, false, some "User has active subscription", none, false, none⟩, [])
    else
      let emailNotified :=
        hasBoundEmail user.email && env.emailAvailable && env.emailSend cand.handle
      let emailError : Option String :=
        if hasBoundEmail user.email then
          if env.emailAvailable then
            if env.emailSend cand.handle then none
            else some "Failed to send notification email"
          else some "Email service not available"
        else none
      if env.removeUserOk cand.handle then
        let st1 : Store := { st with users := st.users.filter (fun u => u.handle ≠ cand.handle) }
        if env.removeAvatarOk cand.handle then
          let st2 : Store := { st1 with avatars := st1.avatars.filter (fun h => h ≠ cand.handle) }
          if (env.userDirs cand.handle "root").isSome then
            if env.rmDirOk cand.handle then
              (st2, ⟨cand.handle, cand.name, true, none, some cand.storageSize, emailNotified, emailError⟩,
               [.removeUserRecord cand.handle, .removeAvatarRecord cand.handle,
                .removeDirectory cand.handle, .resetStats cand.handle])
            else
              (st2, ⟨cand.handle, cand.name, false, some "directory removal error", none, emailNotified, emailError⟩,
               [.removeUserRecord cand.handle, .removeAvatarRecord cand.handle])
          else
            (st2, ⟨cand.handle, cand.name, true, none, some cand.storageSize, emailNotified, emailError⟩,
             [.removeUserRecord cand.handle, .removeAvatarRecord cand.handle, .resetStats cand.handle])
        else
          (st1, ⟨cand.handle, cand.name, false, some "avatar record removal error", none, emailNotified, emailError⟩,
           [.removeUserRecord cand.handle])
      else
        (st, ⟨cand.handle, cand.name, false, some "account record removal error", none, emailNotified, emailError⟩, [])

/-- The execution pass over the whole candidate list, threading the store
and accumulating the per-candidate report, the effects, and
`totalDeletedSize`. -/
def execPass (env : Env) (excl : Bool) : Store → List Candidate →
    Store × List CandResult × List Effect × Nat
  | st, [] => (st, [], [], 0)
  | st, cand :: rest =>
    let step := execCandidate env excl st cand
    let further := execPass env excl step.1 rest
    (further.1, step.2.1 :: further.2.1, step.2.2 ++ further.2.2.1,
     (if step.2.1.success then cand.storageSize else 0) + further.2.2.2)

/-- The parsed request body of the endpoint.  `previewToken = none` models
a missing, non-string or implausibly short (< 8 characters) `previewId`,
or one that is not the digest of any input; `previewToken = some t`
models the digest of input `t` (distinct inputs give distinct digests).
`confirmCount = none` models a `confirmCount` whose `Number(...)` image
is not a finite integer. -/
structure ExecBody where
  dryRun : Bool
  previewToken : Option (ScanCriteria × List String)
  confirmCount : Option Int
deriving DecidableEq

/-- The response of the endpoint (HTTP framing reduced to the status
class and the distinguishing message or payload). -/
inductive ExecResponse where
  | badRequest (msg : String)
  | conflict (msg : String)
  | previewReport (tok : ScanCriteria × List String) (cands : List Candidate) (totalSize : Nat)
  | execReport (results : List CandResult) (totalDeletedSize : Nat)
deriving DecidableEq

/-- Diagnostic for a missing/short previewId. -/
def missingTokenMsg : String := "missing previewId: run a preview scan first"

/-- Diagnostic for a missing/invalid confirmCount. -/
def missingCountMsg : String := "missing confirmCount"

/-- Diagnostic for a stale token. -/
def staleTokenMsg : String := "preview changed: rescan before deleting"

/-- Diagnostic for a count mismatch. -/
def countMismatchMsg : String := "confirmCount mismatch"

/-- The `/delete-inactive-users` endpoint after criteria validation: scan,
compute the token; in dry-run mode report; otherwise validate the
supplied token and count against the fresh scan and only then run the
destructive pass.  Returns the response, the resulting store and the
performed destructive effects. -/
def deleteInactiveUsers (env : Env) (st : Store) (c : ScanCriteria) (body : ExecBody) :
    ExecResponse × Store × List Effect :=
  let candidates := scanCandidates env c st.users
  let totalCandidateSize := (candidates.map Candidate.storageSize).sum
  let tok := previewId c (candidates.map Candidate.handle)
  if body.dryRun then
    (.previewReport tok candidates totalCandidateSize, st, [])
  else
    match body.previewToken with
    | none => (.badRequest missingTokenMsg, st, [])
    | some t =>
      match body.confirmCount with
      | none => (.badRequest missingCountMsg, st, [])
      | some n =>
        if n < 0 then (.badRequest missingCountMsg, st, [])
        else if t ≠ tok then (.conflict staleTokenMsg, st, [])
        else if n ≠ (candidates.length : Int) then (.badRequest countMismatchMsg, st, [])
        else
          let run := execPass env c.excludeActiveSubscriptions st candidates
          (.execReport run.2.1 run.2.2.2, run.1, run.2.2.1)

/-- Response of the single-user `/delete` endpoint. -/
inductive DeleteResponse where
  | badRequest (msg : String)
  | noContent
deriving DecidableEq, Repr

/-- The single-user `/delete` endpoint (lines 416-457): reject a falsy
handle, the caller's own handle and the default account's handle (all
compared against the raw supplied handle, before normalization), then
normalize, remove the account and avatar records and the stats, and
remove the directory tree when `purge` is set.  `normalize` is the
external `normalizeHandle` collaborator (`none` for an invalid/falsy
result). -/
def deleteUserRoute (env : Env) (normalize : String → Option String)
    (st : Store) (bodyHandle : Option String) (purge : Bool) :
    DeleteResponse × Store × List Effect :=
  match bodyHandle with
  | none => (.badRequest "Missing required fields", st, [])
  | some raw =>
    if raw = "" then (.badRequest "Missing required fields", st, [])
    else if raw = env.callerHandle then (.badRequest "Cannot delete yourself", st, [])
    else if raw = env.defaultHandle then (.badRequest "the default user cannot be deleted", st, [])
    else
      match normalize raw with
      | none => (.badRequest "Invalid handle format", st, [])
      | some h =>
        let st1 : Store := { users := st.users.filter (fun u => u.handle ≠ h),
                             avatars := st.avatars.filter (fun a => a ≠ h) }
        let effs := [Effect.removeUserRecord h, Effect.removeAvatarRecord h, Effect.resetStats h]
        if purge then (.noContent, st1, effs ++ [Effect.removeDirectory h])
        else (.noContent, st1, effs)

/-- Modelled from the spec (section 4.3 step 3), for comparison with the
code's `computeLastActivity`: prefer a live heartbeat signal if present,
else a recorded last-activity signal, else fall back to account creation
time. -/
def specLastActivity (stats : Option UserStats) (created : Option Nat) : Nat :=
  match stats with
  | some s =>
    match s.lastHeartbeat with
    | some hb => hb
    | none =>
      match s.lastActivity with
      | some la => la
      | none => created.getD 0
  | none => created.getD 0

/-! ## Helper lemmas -/

/-- The loop of `checkUserIsUnused` returns `true` exactly when every
remaining category reports no extra content, independently of the
accumulator. -/
theorem checkGo_fst_true_iff (ud bd : String → Option FS) :
    ∀ (keys : List String) (acc : List (String × ExtraResult)),
      (checkGo ud bd keys acc).1 = true ↔
        ∀ k ∈ keys, (dirHasExtraContent (ud k) (bd k)).hasExtra = false := by
  intro keys
  induction keys with
  | nil => intro acc; simp [checkGo]
  | cons k rest ih =>
    intro acc
    by_cases h : (dirHasExtraContent (ud k) (bd k)).hasExtra = true
    · simp [checkGo, h]
    · simp only [Bool.not_eq_true] at h
      simp [checkGo, h, ih]

/-- The keys recorded in the `details` accumulator by the loop: the clean
prefix of the remaining checklist followed by the first offending
category, if any. -/
theorem checkGo_details_keys (ud bd : String → Option FS) :
    ∀ (keys : List String) (acc : List (String × ExtraResult)),
      ((checkGo ud bd keys acc).2).map Prod.fst =
        acc.map Prod.fst
          ++ keys.takeWhile (fun k => !(dirHasExtraContent (ud k) (bd k)).hasExtra)
          ++ (keys.dropWhile (fun k => !(dirHasExtraContent (ud k) (bd k)).hasExtra)).take 1 := by
  intro keys
  induction keys with
  | nil => intro acc; simp [checkGo]
  | cons k rest ih =>
    intro acc
    by_cases h : (dirHasExtraContent (ud k) (bd k)).hasExtra = true
    · simp [checkGo, h, List.takeWhile_cons, List.dropWhile_cons]
    · simp only [Bool.not_eq_true] at h
      simp [checkGo, h, ih, List.takeWhile_cons, List.dropWhile_cons]

/-- The checklist contains no duplicate category keys. -/
theorem keysToCheck_nodup : keysToCheck.Nodup := by decide

/-! ## Claim theorems -/

/-- C3: `checkUserIsUnused` returns `isUnused = true` if and only if every
category in the fixed checklist reports no extra content; any single
category reporting extra content yields `isUnused = false` regardless of
the remaining categories; and any unexpected error thrown during the
traversal of a category (an escaping `readdir` failure, or a root on
which `readdir` itself throws) is reported as `hasExtra = true` for that
category, so an error never produces `isUnused = true`. -/
theorem C3_checkUserIsUnused_iff_no_extra :
    (∀ ud bd : String → Option FS,
      (checkUserIsUnused ud bd).1 = true ↔
        ∀ k ∈ keysToCheck, (dirHasExtraContent (ud k) (bd k)).hasExtra = false)
    ∧ (∀ (ud bd : String → Option FS) (k : String), k ∈ keysToCheck →
        (dirHasExtraContent (ud k) (bd k)).hasExtra = true →
        (checkUserIsUnused ud bd).1 = false)
    ∧ (∀ (bd : Option FS) (sz : Nat) (so : Bool) (entries : List (String × FS)),
        walkEntries bd [] entries = .error () →
        (dirHasExtraContent (some (.dir sz so entries true)) bd).hasExtra = true)
    ∧ (∀ (bd : Option FS) (sz : Nat) (so : Bool) (entries : List (String × FS)),
        (dirHasExtraContent (some (.dir sz so entries false)) bd).hasExtra = true) := by
  refine ⟨fun ud bd => checkGo_fst_true_iff ud bd keysToCheck [], ?_, ?_, ?_⟩
  · intro ud bd k hk hextra
    have h := checkGo_fst_true_iff ud bd keysToCheck []
    rcases hb : (checkUserIsUnused ud bd).1 with _ | _
    · rfl
    · exact absurd hextra (by simpa using (h.1 hb) k hk)
  · intro bd sz so entries herr
    simp [dirHasExtraContent, herr]
  · intro bd sz so entries
    simp [dirHasExtraContent]

/-- Directory sets used by the C3 witness: one extra chat file, no
baseline. -/
def c3WitnessUserDirs : String → Option FS :=
  fun k => if k = "chats" then some (.dir 1 true [("chat1.json", .file 13 true)] true) else none

/-- Witness: a user with one extra chat file is reported used. -/
theorem C3_witness :
    (checkUserIsUnused c3WitnessUserDirs (fun _ => none)).1 = false :=
  C3_checkUserIsUnused_iff_no_extra.2.1 c3WitnessUserDirs (fun _ => none) "chats"
    (by decide) (by decide)

/-- The head of a nonempty `dropWhile` result falsifies the predicate. -/
theorem dropWhile_head_false {α : Type} (p : α → Bool) :
    ∀ (l : List α) (b : α) (t : List α), l.dropWhile p = b :: t → p b = false := by
  intro l
  induction l with
  | nil => intro b t h; simp [List.dropWhile] at h
  | cons a l ih =>
    intro b t h
    rcases hpa : p a with _ | _
    · rw [List.dropWhile_cons, hpa] at h
      simp at h
      rw [← h.1]
      exact hpa
    · rw [List.dropWhile_cons, hpa] at h
      simp at h
      exact ih b t h

/-- C10: the checklist is evaluated strictly in order and stops at the
first category reporting extra content: when the result is
`isUnused = false` the details record holds exactly the categories
checked up to and including the first offending one (every later
checklist category being absent), and when the result is
`isUnused = true` the details record holds every checklist category. -/
theorem C10_details_short_circuit :
    ∀ ud bd : String → Option FS,
      ((checkUserIsUnused ud bd).1 = true →
        ((checkUserIsUnused ud bd).2).map Prod.fst = keysToCheck)
      ∧ ((checkUserIsUnused ud bd).1 = false →
        ∃ pre bad post,
          keysToCheck = pre ++ bad :: post
          ∧ (∀ k ∈ pre, (dirHasExtraContent (ud k) (bd k)).hasExtra = false)
          ∧ (dirHasExtraContent (ud bad) (bd bad)).hasExtra = true
          ∧ ((checkUserIsUnused ud bd).2).map Prod.fst = pre ++ [bad]
          ∧ ∀ k ∈ post, k ∉ ((checkUserIsUnused ud bd).2).map Prod.fst) := by
  intro ud bd
  have hkeys := checkGo_details_keys ud bd keysToCheck []
  constructor
  · intro htrue
    have hall := (checkGo_fst_true_iff ud bd keysToCheck []).1 htrue
    have htake : keysToCheck.takeWhile
        (fun k => !(dirHasExtraContent (ud k) (bd k)).hasExtra) = keysToCheck :=
      List.takeWhile_eq_self_iff.2 (by intro a ha; simp [hall a ha])
    have hdrop : keysToCheck.dropWhile
        (fun k => !(dirHasExtraContent (ud k) (bd k)).hasExtra) = [] :=
      List.dropWhile_eq_nil_iff.2 (by intro a ha; simp [hall a ha])
    simpa [htake, hdrop] using hkeys
  · intro hfalse
    have hkeys' : ((checkUserIsUnused ud bd).2).map Prod.fst =
        keysToCheck.takeWhile (fun k => !(dirHasExtraContent (ud k) (bd k)).hasExtra)
          ++ (keysToCheck.dropWhile
              (fun k => !(dirHasExtraContent (ud k) (bd k)).hasExtra)).take 1 := by
      simpa using hkeys
    have hnall : ¬ ∀ k ∈ keysToCheck, (dirHasExtraContent (ud k) (bd k)).hasExtra = false := by
      intro hall
      have htrue : (checkUserIsUnused ud bd).1 = true :=
        (checkGo_fst_true_iff ud bd keysToCheck []).2 hall
      rw [htrue] at hfalse
      cases hfalse
    have hdropne : keysToCheck.dropWhile
        (fun k => !(dirHasExtraContent (ud k) (bd k)).hasExtra) ≠ [] := by
      intro hnil
      exact hnall (by
        intro a ha
        have := List.dropWhile_eq_nil_iff.1 hnil a ha
        simpa using this)
    rcases hdw : keysToCheck.dropWhile
        (fun k => !(dirHasExtraContent (ud k) (bd k)).hasExtra) with _ | ⟨bad, post⟩
    · exact absurd hdw hdropne
    · have hsplit : keysToCheck = keysToCheck.takeWhile
          (fun k => !(dirHasExtraContent (ud k) (bd k)).hasExtra) ++ bad :: post := by
        rw [← hdw]; exact (List.takeWhile_append_dropWhile _ _).symm
      refine ⟨keysToCheck.takeWhile (fun k => !(dirHasExtraContent (ud k) (bd k)).hasExtra),
        bad, post, hsplit, ?_, ?_, ?_, ?_⟩
      · intro k hk
        have := List.mem_takeWhile_imp hk
        simpa using this
      · have := dropWhile_head_false
          (fun k => !(dirHasExtraContent (ud k) (bd k)).hasExtra) keysToCheck bad post hdw
        simpa using this
      · rw [hkeys', hdw]; simp
      · intro k hkpost
        have hnd : (keysToCheck.takeWhile
            (fun k => !(dirHasExtraContent (ud k) (bd k)).hasExtra) ++ bad :: post).Nodup := by
          rw [← hsplit]; exact keysToCheck_nodup
        rcases List.nodup_append.1 hnd with ⟨_, hnd2, hdisj⟩
        have hknotpre : k ∉ keysToCheck.takeWhile
            (fun k => !(dirHasExtraContent (ud k) (bd k)).hasExtra) := by
          intro hkpre
          exact hdisj hkpre (List.mem_cons_of_mem bad hkpost)
        have hkne : k ≠ bad := by
          intro hkb
          rcases List.nodup_cons.1 hnd2 with ⟨hbadnot, _⟩
          exact hbadnot (hkb ▸ hkpost)
        rw [hkeys', hdw]
        simp only [List.take, List.mem_append, List.mem_singleton]
        rintro (hkpre | hkb)
        · exact hknotpre hkpre
        · exact hkne hkb

/-- Directory sets used by the C10 witness: extra content in the fourth
checked category. -/
def c10WitnessUserDirs : String → Option FS :=
  fun k => if k = "worlds" then some (.dir 1 true [("wi.json", .file 9 true)] true) else none

/-- Witness: with extra content in `worlds`, the details record stops at
`worlds` and omits every later category. -/
theorem C10_witness :
    ∃ pre bad post,
      keysToCheck = pre ++ bad :: post
      ∧ (∀ k ∈ pre,
          (dirHasExtraContent (c10WitnessUserDirs k) ((fun _ => none) k)).hasExtra = false)
      ∧ (dirHasExtraContent (c10WitnessUserDirs bad) ((fun _ => none) bad)).hasExtra = true
      ∧ ((checkUserIsUnused c10WitnessUserDirs (fun _ => none)).2).map Prod.fst = pre ++ [bad]
      ∧ ∀ k ∈ post, k ∉ ((checkUserIsUnused c10WitnessUserDirs (fun _ => none)).2).map Prod.fst :=
  (C10_details_short_circuit c10WitnessUserDirs (fun _ => none)).2 (by decide)

/-- C4: classification of the entries met while walking a category
directory, after filtering OS noise names: a non-regular-file entry is
extra unconditionally; with no baseline directory every file is extra; a
file whose relative path is absent from the baseline is extra; a file
present in the baseline with a differing byte size is extra; and a file
present in the baseline with an equal byte size is accepted as not
extra.  Ignored OS-noise names are skipped entirely. -/
theorem C4_entry_classification :
    ∀ (bd : Option FS) (rel : List String) (name : String),
      (∀ sz ok, walkEntry bd rel name (.special sz ok)
        = .ok (some (relString (rel ++ [name]))))
      ∧ (∀ sz ok, bd = none → walkEntry bd rel name (.file sz ok)
          = .ok (some (relString (rel ++ [name]))))
      ∧ (∀ sz ok b, bd = some b → FS.lookup b (rel ++ [name]) = none →
          walkEntry bd rel name (.file sz ok)
            = .ok (some (relString (rel ++ [name]))))
      ∧ (∀ sz b bn bi bsz, bd = some b → FS.lookup b (rel ++ [name]) = some bn →
          statInfo bn = some (bi, bsz) → sz ≠ bsz →
          walkEntry bd rel name (.file sz true)
            = .ok (some (relString (rel ++ [name]))))
      ∧ (∀ sz b bn bi, bd = some b → FS.lookup b (rel ++ [name]) = some bn →
          statInfo bn = some (bi, sz) →
          walkEntry bd rel name (.file sz true) = .ok none)
      ∧ (∀ t rest, IGNORED_ENTRY_NAMES.contains name = true →
          walkEntries bd rel ((name, t) :: rest) = walkEntries bd rel rest) := by
  intro bd rel name
  refine ⟨?_, ?_, ?_, ?_, ?_, ?_⟩
  · intro sz ok; rfl
  · intro sz ok hbd; subst hbd; rfl
  · intro sz ok b hbd hlook; subst hbd; simp [walkEntry, hlook]
  · intro sz b bn bi bsz hbd hlook hstat hne; subst hbd
    simp [walkEntry, hlook, hstat, hne]
  · intro sz b bn bi hbd hlook hstat; subst hbd
    simp [walkEntry, hlook, hstat]
  · intro t rest hign
    have hmem : name ∈ IGNORED_ENTRY_NAMES := by simpa using hign
    simp [walkEntries, hmem]

/-- Witness for C4: a symlink entry, an un-baselined file, a
baseline-absent file, a size mismatch, a size match and an ignored name,
each at a concrete input. -/
theorem C4_witness :
    walkEntry none [] "link" (.special 0 true) = .ok (some "link")
    ∧ walkEntry none [] "a.json" (.file 3 true) = .ok (some "a.json")
    ∧ walkEntry (some (.dir 1 true [] true)) [] "a.json" (.file 3 true) = .ok (some "a.json")
    ∧ walkEntry (some (.dir 1 true [("a.json", .file 9 true)] true)) [] "a.json" (.file 3 true)
        = .ok (some "a.json")
    ∧ walkEntry (some (.dir 1 true [("a.json", .file 3 true)] true)) [] "a.json" (.file 3 true)
        = .ok none
    ∧ walkEntries none [] [(".DS_Store", FS.file 3 true)] = walkEntries none [] [] := by
  have h := C4_entry_classification
  refine ⟨(h none [] "link").1 0 true, (h none [] "a.json").2.1 3 true rfl, ?_, ?_, ?_, ?_⟩
  · exact (h (some (.dir 1 true [] true)) [] "a.json").2.2.1 3 true _ rfl rfl
  · exact (h (some (.dir 1 true [("a.json", .file 9 true)] true)) [] "a.json").2.2.2.1
      3 _ (.file 9 true) false 9 rfl rfl rfl (by decide)
  · exact (h (some (.dir 1 true [("a.json", .file 3 true)] true)) [] "a.json").2.2.2.2.1
      3 _ (.file 3 true) false rfl rfl rfl
  · exact (h none [] ".DS_Store").2.2.2.2.2 (FS.file 3 true) [] (by decide)

/-- C8 counterexample: in a directory whose first entry fails `stat` and
whose second entry is a healthy 7-byte file, the computed size is 0 — the
sibling following the failing entry is not counted, although it is
outside the failing subtree (alone, it is counted as 7 bytes). -/
theorem C8_counterexample :
    calculateDirectorySize
        (some (.dir 4096 true [("a", .file 5 false), ("b", .file 7 true)] true)) = 0
    ∧ calculateDirectorySize (some (.dir 4096 true [("b", .file 7 true)] true)) = 7
    ∧ (0 : Nat) ≠ 7 := by
  refine ⟨by decide, by decide, by decide⟩

/-- C8 (amended): size computation returns 0 for every path that does not
exist and never propagates an error for the whole call; on a per-entry
stat failure the call returns the partial sum accumulated before the
failure — the failing entry and all of its later siblings in the same
directory are lost — while a failure inside a subdirectory only reduces
that subdirectory's own contribution and leaves the parent's other
entries counted. -/
theorem C8_partial_sum_on_failure :
    calculateDirectorySize none = 0
    ∧ (∀ (pre : List (String × FS)) (name : String) (t : FS) (post : List (String × FS)),
        statInfo t = none →
        calcEntries (pre ++ (name, t) :: post) = calcEntries pre)
    ∧ (∀ (name : String) (sz : Nat) (entries : List (String × FS)) (ro : Bool)
        (rest : List (String × FS)),
        calcEntries ((name, .dir sz true entries ro) :: rest)
          = calcNode (.dir sz true entries ro) + calcEntries rest) := by
  refine ⟨rfl, ?_, ?_⟩
  · intro pre name t post hfail
    induction pre with
    | nil => simp [calcEntries, hfail]
    | cons e pre ih =>
      rcases e with ⟨n, u⟩
      rcases hs : statInfo u with _ | ⟨isDir, size⟩
      · simp [calcEntries, hs]
      · simp [calcEntries, hs, ih]
  · intro name sz entries ro rest
    simp [calcEntries, statInfo]

/-- Witness for C8 (amended): a concrete failing entry erases exactly the
entries from the failure onward. -/
theorem C8_witness :
    calcEntries [("ok", FS.file 2 true), ("bad", FS.file 5 false), ("late", FS.file 7 true)]
      = calcEntries [("ok", FS.file 2 true)] :=
  C8_partial_sum_on_failure.2.1 [("ok", FS.file 2 true)] "bad" (FS.file 5 false)
    [("late", FS.file 7 true)] rfl

/-- C1: a protected account is never touched by the bulk pass.  The scan
skips every user whose handle is the caller's or the default account's,
or whose record has the admin flag set; and when the execution pass
re-fetches such a user's live record, it records the per-candidate
`protected` failure and returns the store unchanged with no destructive
effect. -/
theorem C1_protected_never_deleted :
    (∀ (env : Env) (c : ScanCriteria) (u : User),
        u.handle = env.callerHandle ∨ u.handle = env.defaultHandle ∨ u.admin = true →
        scanUser env c u = none)
    ∧ (∀ (env : Env) (excl : Bool) (st : Store) (cand : Candidate) (user : User),
        st.users.find? (fun v => v.handle == cand.handle) = some user →
        (cand.handle = env.callerHandle ∨ cand.handle = env.defaultHandle ∨ user.admin = true) →
        execCandidate env excl st cand =
          (st, ⟨cand.handle, cand.name, false, some protectedMsg, none, false, none⟩, [])) := by
  constructor
  · rintro env c u (h | h | h)
    · simp [scanUser, h]
    · by_cases hc : u.handle = env.callerHandle
      · simp [scanUser, hc]
      · simp [scanUser, hc, h]
    · by_cases hc : u.handle = env.callerHandle
      · simp [scanUser, hc]
      · by_cases hd : u.handle = env.defaultHandle
        · simp [scanUser, hc, hd]
        · simp [scanUser, hc, hd, h]
  · intro env excl st cand user hfind hprot
    simp only [execCandidate, hfind]
    rw [if_pos hprot]

/-- Environment used by concrete witnesses: the caller is `admin`, the
default account is `default-user`, and all oracles are inert. -/
def wEnv : Env :=
  { callerHandle := "admin"
    defaultHandle := "default-user"
    now := 3 * dayMs
    now2 := 3 * dayMs
    stats := fun _ => none
    userDirs := fun _ _ => none
    baselineDirs := fun _ => none
    emailAvailable := false
    emailSend := fun _ => false
    removeUserOk := fun _ => true
    removeAvatarOk := fun _ => true
    rmDirOk := fun _ => true }

/-- Criteria used by concrete witnesses. -/
def wCriteria : ScanCriteria :=
  { inactiveDays := 1, requireUnused := false, maxStorageMB := none,
    excludeActiveSubscriptions := true }

/-- An admin user record used by concrete witnesses. -/
def wAdminUser : User :=
  { handle := "bob", name := "Bob", created := some 10, admin := true,
    enabled := true, expiresAt := none, email := none }

/-- A candidate naming the admin record, as if produced by an earlier
scan. -/
def wAdminCand : Candidate :=
  { handle := "bob", name := "Bob", lastActivity := 10, daysSinceLastActivity := 2,
    storageSize := 0, hasEmail := false, expiresAt := none,
    hasActiveSubscription := false, isUnused := none }

/-- Witness for C1: the admin record is skipped by the scan, and the
execution pass records a `protected` failure with no effect. -/
theorem C1_witness :
    scanUser wEnv wCriteria wAdminUser = none
    ∧ execCandidate wEnv true ⟨[wAdminUser], []⟩ wAdminCand =
        (⟨[wAdminUser], []⟩,
         ⟨"bob", "Bob", false, some protectedMsg, none, false, none⟩, []) := by
  constructor
  · exact C1_protected_never_deleted.1 wEnv wCriteria wAdminUser (Or.inr (Or.inr rfl))
  · exact C1_protected_never_deleted.2 wEnv true ⟨[wAdminUser], []⟩ wAdminCand wAdminUser
      rfl (Or.inr (Or.inr rfl))

/-- Every branch of `execCandidate` reports the candidate's own handle. -/
theorem execCandidate_handle (env : Env) (excl : Bool) (st : Store) (cand : Candidate) :
    ((execCandidate env excl st cand).2.1).handle = cand.handle := by
  cases hf : st.users.find? (fun u => u.handle == cand.handle) with
  | none => simp [execCandidate, hf]
  | some user =>
    simp only [execCandidate, hf]
    split_ifs <;> rfl

/-- C7: the execution pass processes every candidate independently: each
candidate yields exactly one success-or-failure entry of the aggregate
report, in order, whatever the outcome oracles decide, and no
per-candidate error escapes the pass (the per-iteration try/catch is
embedded by `execCandidate` being total: every failure becomes a report
entry rather than an exception). -/
theorem C7_per_candidate_isolation :
    ∀ (env : Env) (excl : Bool) (st : Store) (cands : List Candidate),
      ((execPass env excl st cands).2.1).map CandResult.handle = cands.map Candidate.handle
      ∧ ((execPass env excl st cands).2.1).length = cands.length := by
  intro env excl st cands
  induction cands generalizing st with
  | nil => simp [execPass]
  | cons cand rest ih =>
    have hh := execCandidate_handle env excl st cand
    have htail := ih (execCandidate env excl st cand).1
    constructor
    · simp [execPass, hh, htail.1]
    · simp [execPass, htail.2]

/-- C2: every execute call (non-dry-run) whose supplied token is missing
or implausibly short, whose supplied count is not a non-negative integer,
whose token differs from the one recomputed by the fresh scan, or whose
count differs from the freshly recomputed candidate count, aborts with
the corresponding specific diagnostic, leaves the store unchanged and
performs no destructive effect. -/
theorem C2_precondition_aborts :
    ∀ (env : Env) (st : Store) (c : ScanCriteria) (body : ExecBody),
      body.dryRun = false →
      (body.previewToken = none →
        deleteInactiveUsers env st c body = (.badRequest missingTokenMsg, st, []))
      ∧ (∀ t, body.previewToken = some t →
          (body.confirmCount = none ∨ ∃ n, body.confirmCount = some n ∧ n < 0) →
          deleteInactiveUsers env st c body = (.badRequest missingCountMsg, st, []))
      ∧ (∀ t n, body.previewToken = some t → body.confirmCount = some n → 0 ≤ n →
          t ≠ previewId c ((scanCandidates env c st.users).map Candidate.handle) →
          deleteInactiveUsers env st c body = (.conflict staleTokenMsg, st, []))
      ∧ (∀ t n, body.previewToken = some t → body.confirmCount = some n → 0 ≤ n →
          t = previewId c ((scanCandidates env c st.users).map Candidate.handle) →
          n ≠ ((scanCandidates env c st.users).length : Int) →
          deleteInactiveUsers env st c body = (.badRequest countMismatchMsg, st, [])) := by
  intro env st c body hdry
  refine ⟨?_, ?_, ?_, ?_⟩
  · intro htok
    simp [deleteInactiveUsers, hdry, htok]
  · rintro t htok (hcnt | ⟨n, hcnt, hneg⟩)
    · simp [deleteInactiveUsers, hdry, htok, hcnt]
    · simp [deleteInactiveUsers, hdry, htok, hcnt, hneg]
  · intro t n htok hcnt hge hne
    have hnlt : ¬ n < 0 := Int.not_lt.mpr hge
    simp [deleteInactiveUsers, hdry, htok, hcnt, hnlt, hne]
  · intro t n htok hcnt hge hteq hne
    have hnlt : ¬ n < 0 := Int.not_lt.mpr hge
    simp [deleteInactiveUsers, hdry, htok, hcnt, hnlt, hteq, hne]

/-- Witness for C2: a non-dry-run call with a missing token aborts with
the missing-token diagnostic and no deletions. -/
theorem C2_witness :
    deleteInactiveUsers wEnv ⟨[], []⟩ wCriteria ⟨false, none, none⟩ =
      (.badRequest missingTokenMsg, ⟨[], []⟩, []) :=
  (C2_precondition_aborts wEnv ⟨[], []⟩ wCriteria ⟨false, none, none⟩ rfl).1 rfl

/-- The raw-equality part of the single-user delete guard that does hold:
a request whose supplied handle string equals the caller's or the default
account's handle verbatim is rejected before any removal.  This is only
the literal comparison the code performs; the guard runs before
normalization, so it does not extend to denormalized aliases of a
protected handle (see the C9 exhibit below). -/
theorem deleteUserRoute_raw_guard :
    ∀ (env : Env) (normalize : String → Option String) (st : Store)
      (raw : String) (purge : Bool),
      raw = env.callerHandle ∨ raw = env.defaultHandle →
      ∃ msg, deleteUserRoute env normalize st (some raw) purge = (.badRequest msg, st, []) := by
  intro env normalize st raw purge h
  by_cases he : raw = ""
  · exact ⟨"Missing required fields", by simp [deleteUserRoute, he]⟩
  · by_cases hc : raw = env.callerHandle
    · exact ⟨"Cannot delete yourself", by
        simp only [deleteUserRoute]
        rw [if_neg he, if_pos hc]⟩
    · rcases h with h | h
      · exact absurd h hc
      · exact ⟨"the default user cannot be deleted", by
          simp only [deleteUserRoute]
          rw [if_neg he, if_neg hc, if_pos h]⟩

/-- The raw-equality guard at a concrete input: a request supplying the
caller's handle verbatim is rejected with no removals. -/
theorem deleteUserRoute_raw_guard_verbatim :
    ∃ msg, deleteUserRoute wEnv (fun s => some s) ⟨[wAdminUser], []⟩ (some "admin") true
      = (.badRequest msg, ⟨[wAdminUser], []⟩, []) :=
  deleteUserRoute_raw_guard wEnv (fun s => some s) ⟨[wAdminUser], []⟩ "admin" true
    (Or.inl rfl)

/-- ASCII lowercasing of one character. -/
def lowerChar (c : Char) : Char :=
  if 65 ≤ c.toNat ∧ c.toNat ≤ 90 then Char.ofNat (c.toNat + 32) else c

/-- ASCII lowercasing of a string. -/
def lowerString (s : String) : String := String.mk (s.data.map lowerChar)

/-- Modelled from the spec: the external `normalizeHandle` collaborator
(users.js, outside the provided sources).  The spec fixes only that
stored handles are normalized identifiers (glossary; `/create` stores
`normalizeHandle(request.body.handle)`), not the map itself; it is
modelled as ASCII lowercasing with falsy results rejected, a
normalization under which every stored handle is a fixed point and a
denormalized alias such as `"Admin"` maps to the stored `"admin"`. -/
def normalizeHandleModel (raw : String) : Option String :=
  let n := lowerString raw
  if n = "" then none else some n

/-- The caller's own stored account record for the C9 exhibit. -/
def c9Caller : User :=
  { handle := "admin", name := "Admin", created := some 0, admin := true,
    enabled := true, expiresAt := none, email := none }

/-- C9: the claim fails on the code.  The delete endpoint compares the
raw supplied handle against the caller's and the default account's
handles before normalizing (unlike `/disable` and `/demote`, which
normalize first), so the alias `"Admin"` — which denotes the caller's
account `"admin"` under normalization — passes both guards, and the
route then removes the caller's own account record, avatar record,
stats and directory tree instead of rejecting the request. -/
theorem C9_alias_bypass :
    normalizeHandleModel "Admin" = some wEnv.callerHandle
    ∧ "Admin" ≠ wEnv.callerHandle
    ∧ deleteUserRoute wEnv normalizeHandleModel ⟨[c9Caller], ["admin"]⟩ (some "Admin") true
        = (.noContent, ⟨[], []⟩,
           [.removeUserRecord "admin", .removeAvatarRecord "admin",
            .resetStats "admin", .removeDirectory "admin"]) :=
  ⟨by decide, by decide, by decide⟩

/-- Sorting the handles is invariant under permutation of the scan's
iteration order. -/
theorem sortedHandles_eq_of_perm {h h' : List String} (hp : h.Perm h') :
    sortedHandles h = sortedHandles h' :=
  List.eq_of_perm_of_sorted
    (((List.mergeSort_perm h _).trans hp).trans (List.mergeSort_perm h' _).symm)
    (List.sorted_mergeSort' h) (List.sorted_mergeSort' h')

/-- C5: the confirmation token is a deterministic digest of the criteria
and the sorted candidate handles: over duplicate-free handle lists (scan
candidates are keyed by unique handles), two tokens agree exactly when
the criteria agree and the candidate handle sets have the same members,
in whatever iteration order; equivalently, any change to a criterion or
to candidate-set membership changes the digest input. -/
theorem C5_token_deterministic_injective :
    ∀ (c c' : ScanCriteria) (h h' : List String), h.Nodup → h'.Nodup →
      (previewId c h = previewId c' h' ↔ (c = c' ∧ ∀ x, x ∈ h ↔ x ∈ h')) := by
  intro c c' h h' hn hn'
  constructor
  · intro heq
    have h1 : c = c' := congrArg Prod.fst heq
    have h2 : sortedHandles h = sortedHandles h' := congrArg Prod.snd heq
    refine ⟨h1, fun x => ?_⟩
    calc x ∈ h ↔ x ∈ sortedHandles h := ((List.mergeSort_perm h _).mem_iff).symm
      _ ↔ x ∈ sortedHandles h' := by rw [h2]
      _ ↔ x ∈ h' := (List.mergeSort_perm h' _).mem_iff
  · rintro ⟨h1, h2⟩
    have hperm : h.Perm h' := (List.perm_ext_iff_of_nodup hn hn').2 h2
    rw [previewId, previewId, h1, sortedHandles_eq_of_perm hperm]

/-- Witness for C5: two scans listing the same two handles in opposite
orders produce the same token, and the equivalence is inhabited at a
concrete input. -/
theorem C5_witness :
    previewId wCriteria ["b", "a"] = previewId wCriteria ["a", "b"] ↔
      (wCriteria = wCriteria ∧ ∀ x, x ∈ (["b", "a"] : List String) ↔ x ∈ (["a", "b"] : List String)) :=
  C5_token_deterministic_injective wCriteria wCriteria ["b", "a"] ["a", "b"]
    (by decide) (by decide)

/-- Stats record exhibiting the divergence: a heartbeat with no recorded
last-activity signal. -/
def c6Stats : UserStats := ⟨none, some 5000⟩

/-- Environment for the C6 counterexample. -/
def c6Env : Env := { wEnv with stats := fun h => if h = "u" then some c6Stats else none }

/-- User for the C6 counterexample. -/
def c6User : User :=
  { handle := "u", name := "U", created := some 10, admin := false,
    enabled := true, expiresAt := none, email := none }

/-- C6 counterexample: for a user whose stats carry a present heartbeat
signal (5000) but no recorded last-activity signal, the scan's candidate
carries last-activity 10 (the creation time), not the heartbeat — the
code only prefers the heartbeat when the recorded last-activity signal is
itself present and truthy, while the claim (`specLastActivity`) demands
the heartbeat. -/
theorem C6_counterexample :
    c6Env.stats c6User.handle = some ⟨none, some 5000⟩
    ∧ (scanUser c6Env wCriteria c6User).map Candidate.lastActivity = some 10
    ∧ specLastActivity (c6Env.stats c6User.handle) c6User.created = 5000
    ∧ (10 : Nat) ≠ 5000 :=
  ⟨rfl, by decide, rfl, by decide⟩

/-- C6 (amended): the candidate's last-activity time is
`computeLastActivity`: the heartbeat when a stats record exists whose
recorded last-activity signal is present and truthy and whose heartbeat
is truthy; the recorded last-activity signal when it is truthy and the
heartbeat is not; and the account creation time (0 when absent) whenever
no stats record exists or the recorded last-activity signal is absent or
zero.  A user whose elapsed time does not strictly exceed `inactiveDays`
in milliseconds is excluded, and every produced candidate strictly
exceeds it. -/
theorem C6_last_activity_amended :
    (∀ (env : Env) (c : ScanCriteria) (u : User) (cand : Candidate),
        scanUser env c u = some cand →
        cand.lastActivity = computeLastActivity (env.stats u.handle) u.created
        ∧ (env.now : Int) - (cand.lastActivity : Int) > ((c.inactiveDays * dayMs : Nat) : Int))
    ∧ (∀ (env : Env) (c : ScanCriteria) (u : User),
        ¬ ((env.now : Int) - ((computeLastActivity (env.stats u.handle) u.created : Nat) : Int)
            > ((c.inactiveDays * dayMs : Nat) : Int)) →
        scanUser env c u = none)
    ∧ (∀ (s : UserStats) (cr : Option Nat), truthyNat s.lastActivity = true →
        truthyNat s.lastHeartbeat = true →
        computeLastActivity (some s) cr = s.lastHeartbeat.getD 0)
    ∧ (∀ (s : UserStats) (cr : Option Nat), truthyNat s.lastActivity = true →
        truthyNat s.lastHeartbeat = false →
        computeLastActivity (some s) cr = s.lastActivity.getD 0)
    ∧ (∀ (s : UserStats) (cr : Option Nat), truthyNat s.lastActivity = false →
        computeLastActivity (some s) cr = cr.getD 0)
    ∧ (∀ cr : Option Nat, computeLastActivity none cr = cr.getD 0) := by
  refine ⟨?_, ?_, ?_, ?_, ?_, ?_⟩
  · intro env c u cand h
    by_cases h1 : u.handle = env.callerHandle
    · simp [scanUser, h1] at h
    by_cases h2 : u.handle = env.defaultHandle
    · simp [scanUser, h1, h2] at h
    by_cases h3 : u.admin = true
    · simp [scanUser, h1, h2, h3] at h
    by_cases h4 : (c.excludeActiveSubscriptions && hasActiveSubscriptionAt u.expiresAt env.now) = true
    · simp [scanUser, h1, h2, h3, h4] at h
    by_cases h5 : (env.now : Int) - ((computeLastActivity (env.stats u.handle) u.created : Nat) : Int)
        > ((c.inactiveDays * dayMs : Nat) : Int)
    · by_cases h6 : (match maxStorageBytes c with
          | some m => decide ((calculateDirectorySize (env.userDirs u.handle "root") : Int) > m)
          | none => false) = true
      · simp [scanUser, h1, h2, h3, h4, h5, h6] at h
      · by_cases h7 : c.requireUnused = true
        · by_cases h8 : (checkUserIsUnused (env.userDirs u.handle) env.baselineDirs).1 = true
          · simp [scanUser, h1, h2, h3, h4, h5, h6, h7, h8] at h
            rw [← h.2]
            exact ⟨rfl, h5⟩
          · simp [scanUser, h1, h2, h3, h4, h5, h6, h7, h8] at h
        · simp [scanUser, h1, h2, h3, h4, h5, h6, h7] at h
          rw [← h.2]
          exact ⟨rfl, h5⟩
    · exfalso
      simp [scanUser, h1, h2, h3, h4] at h
      have hb := h.1
      push_cast at hb h5
      rw [not_lt] at h5
      linarith
  · intro env c u hnot
    by_cases h1 : u.handle = env.callerHandle
    · simp [scanUser, h1]
    by_cases h2 : u.handle = env.defaultHandle
    · simp [scanUser, h1, h2]
    by_cases h3 : u.admin = true
    · simp [scanUser, h1, h2, h3]
    by_cases h4 : (c.excludeActiveSubscriptions && hasActiveSubscriptionAt u.expiresAt env.now) = true
    · simp [scanUser, h1, h2, h3, h4]
    · simp [scanUser, h1, h2, h3, h4]
      intro hb
      exfalso
      push_cast at hb hnot
      rw [not_lt] at hnot
      linarith
  · intro s cr hla hhb
    simp [computeLastActivity, hla, hhb]
  · intro s cr hla hhb
    simp [computeLastActivity, hla, hhb]
  · intro s cr hla
    simp [computeLastActivity, hla]
  · intro cr
    rfl

/-- User for the C6 witness. -/
def c6WitUser : User :=
  { handle := "w", name := "W", created := some 10, admin := false,
    enabled := true, expiresAt := none, email := none }

/-- The candidate the scan produces for the C6 witness user. -/
def c6WitCand : Candidate :=
  { handle := "w", name := "W", lastActivity := 10, daysSinceLastActivity := 2,
    storageSize := 0, hasEmail := false, expiresAt := none,
    hasActiveSubscription := false, isUnused := none }

/-- Witness for C6 (amended): a concretely scanned candidate carries the
computed last-activity time and strictly exceeds the threshold. -/
theorem C6_witness :
    c6WitCand.lastActivity = computeLastActivity (wEnv.stats c6WitUser.handle) c6WitUser.created
    ∧ (wEnv.now : Int) - (c6WitCand.lastActivity : Int)
        > ((wCriteria.inactiveDays * dayMs : Nat) : Int) :=
  C6_last_activity_amended.1 wEnv wCriteria c6WitUser c6WitCand (by decide)
